import Mathlib

/-!
Verification of the done-hub credential-lifecycle slice.

This development shallowly embeds two components of the repository:

* the signed reversible user-token codec (`common/user-token.go`:
  `GenerateToken`, `ValidateToken`, `resolveUserTokenSecret`), and
* the Codex credential-refresh scheduler and resilient fetch flow
  (`cron/codex_credential_refresh.go`, controller `GetCodexChannelUsage`).

External collaborators (the sqids library, HMAC-SHA256, the relational
store, the upstream HTTP endpoints, `codex.FromJSON`, `Credential.Refresh`)
are not part of the examined source; following the specification they are
modelled either as concrete executable stand-ins faithful to their
documented interface, or as explicit oracles carried in an environment
record, so that every theorem quantifies over their behaviour.
-/

deriving instance DecidableEq for Except

namespace DoneHub

/-! ## Token codec: digit encoding over the sqids alphabet

Modelled from the spec: the sqids reversible mapping (external library
`github.com/sqids/sqids-go`) encodes a list of non-negative integers into a
string over a 62-character alphabet (default `a-zA-Z0-9`, no underscore)
with a configured minimum output length of 15.  The model below reserves
`'a'` as a separator and `'b'` as padding, and writes each number in base 60
over the remaining 60 alphabet characters. -/

/-- Base-60 digits, most significant first, by fuel-bounded structural
recursion (the fuel `n` always suffices, see `ofDigits_toDigits`). -/
def toDigitsAux : Nat → Nat → List Nat
  | 0, n => [n % 60]
  | fuel + 1, n => if n < 60 then [n] else toDigitsAux fuel (n / 60) ++ [n % 60]

/-- Base-60 digits of a natural number, most significant first. -/
def toDigits (n : Nat) : List Nat :=
  toDigitsAux n n

/-- Interpret a most-significant-first base-60 digit list. -/
def ofDigits (ds : List Nat) : Nat :=
  ds.foldl (fun a d => a * 60 + d) 0

/-- The alphabet character used for base-60 digit `d` (`'c'..'z'`,
`'A'..'Z'`, `'0'..'9'`). -/
def digitChar (d : Nat) : Char :=
  if d < 24 then Char.ofNat (99 + d)
  else if d < 50 then Char.ofNat (65 + (d - 24))
  else Char.ofNat (48 + (d - 50))

/-- Inverse of `digitChar`. -/
def digitVal (c : Char) : Option Nat :=
  let n := c.toNat
  if 99 ≤ n ∧ n ≤ 122 then some (n - 99)
  else if 65 ≤ n ∧ n ≤ 90 then some (n - 65 + 24)
  else if 48 ≤ n ∧ n ≤ 57 then some (n - 48 + 50)
  else none

/-- Digit string of one encoded number. -/
def encodeNum (n : Nat) : List Char :=
  (toDigits n).map digitChar

/-- Parse an accumulated digit run; any non-digit character aborts. -/
def parseSegAux (acc : Nat) : List Char → Option Nat
  | [] => some acc
  | c :: cs =>
    match digitVal c with
    | some d => parseSegAux (acc * 60 + d) cs
    | none => none

/-- Parse one (nonempty) digit segment. -/
def parseSeg (cs : List Char) : Option Nat :=
  match cs with
  | [] => none
  | _ :: _ => parseSegAux 0 cs

/-- Split on the first occurrence of `sep`: `none` when absent.  This is the
model of Go `bytes.SplitN(token, sep, 2)` (which yields a single part, hence
the error branch, exactly when the separator is absent). -/
def splitFirst (sep : Char) : List Char → Option (List Char × List Char)
  | [] => none
  | c :: cs =>
    if c = sep then some ([], cs)
    else (splitFirst sep cs).map (fun p => (c :: p.1, p.2))

/-- Remove the trailing padding run. -/
def dropTrailingPad (cs : List Char) : List Char :=
  (cs.reverse.dropWhile (fun c => c = 'b')).reverse

/-- Modelled from the spec: `sqids.Encode` — join the base-60 digit strings
of the numbers with the separator `'a'` and pad with `'b'` up to the
configured minimum length 15. -/
def mSqidsEncode (numbers : List Nat) : List Char :=
  let core := List.intercalate ['a'] (numbers.map encodeNum)
  core ++ List.replicate (15 - core.length) 'b'

/-- Parse every segment; any failing segment aborts the whole decode. -/
def parseSegs : List (List Char) → Option (List Nat)
  | [] => some []
  | s :: rest => do
    let n ← parseSeg s
    let ns ← parseSegs rest
    pure (n :: ns)

/-- Modelled from the spec: `sqids.Decode` — strip padding, split on the
separator and parse each segment; like the library, invalid input yields the
empty list rather than an error. -/
def mSqidsDecode (cs : List Char) : List Nat :=
  let core := dropTrailingPad cs
  match parseSegs (core.splitOn 'a') with
  | some ns => ns
  | none => []

/-! ## Base64 (Go `encoding/base64` RawURLEncoding)

Unpadded URL-safe base64.  Go's default (non-`Strict`) decoder ignores the
unused trailing bits of the final character of a partial quantum; the model
reproduces this, as `ValidateToken` depends on it. -/

/-- The base64url alphabet character of a sextet. -/
def b64Char (n : Nat) : Char :=
  if n < 26 then Char.ofNat (65 + n)
  else if n < 52 then Char.ofNat (97 + (n - 26))
  else if n < 62 then Char.ofNat (48 + (n - 52))
  else if n = 62 then '-'
  else '_'

/-- Inverse of `b64Char`. -/
def b64Val (c : Char) : Option Nat :=
  let n := c.toNat
  if 65 ≤ n ∧ n ≤ 90 then some (n - 65)
  else if 97 ≤ n ∧ n ≤ 122 then some (n - 97 + 26)
  else if 48 ≤ n ∧ n ≤ 57 then some (n - 48 + 52)
  else if c = '-' then some 62
  else if c = '_' then some 63
  else none

/-- Unpadded base64url encoding of a byte list. -/
def b64Encode : List Nat → List Char
  | [] => []
  | [b0] => [b64Char (b0 / 4), b64Char (b0 % 4 * 16)]
  | [b0, b1] =>
    [b64Char (b0 / 4), b64Char (b0 % 4 * 16 + b1 / 16), b64Char (b1 % 16 * 4)]
  | b0 :: b1 :: b2 :: rest =>
    b64Char (b0 / 4) :: b64Char (b0 % 4 * 16 + b1 / 16) ::
      b64Char (b1 % 16 * 4 + b2 / 64) :: b64Char (b2 % 64) :: b64Encode rest

/-- Unpadded base64url decoding; a single leftover character is corrupt
input, and unused trailing bits of the final character are ignored (Go
non-strict behaviour). -/
def b64Decode : List Char → Option (List Nat)
  | [] => some []
  | [_] => none
  | [c0, c1] => do
    let v0 ← b64Val c0
    let v1 ← b64Val c1
    pure [v0 * 4 + v1 / 16]
  | [c0, c1, c2] => do
    let v0 ← b64Val c0
    let v1 ← b64Val c1
    let v2 ← b64Val c2
    pure [v0 * 4 + v1 / 16, v1 % 16 * 16 + v2 / 4]
  | c0 :: c1 :: c2 :: c3 :: rest => do
    let v0 ← b64Val c0
    let v1 ← b64Val c1
    let v2 ← b64Val c2
    let v3 ← b64Val c3
    let tail ← b64Decode rest
    pure ((v0 * 4 + v1 / 16) :: (v1 % 16 * 16 + v2 / 4) :: (v2 % 4 * 64 + v3) :: tail)

/-! ## Keyed integrity tag -/

/-- Modelled from the spec: the keyed integrity tag (HMAC-style,
SHA-256-based, hence 32 output bytes) computed by the external
`crypto/hmac` + `crypto/sha256` packages over the payload with the
process-wide secret.  The claims under verification depend only on the tag
being a deterministic 32-byte function of `(key, msg)`, which this
executable stand-in provides. -/
def hmacSha256 (key msg : List Nat) : List Nat :=
  let k := key.foldl (fun a b => (a * 31 + b) % 256) 7
  let m := msg.foldl (fun a b => (a * 33 + b) % 256) k
  (List.range 32).map (fun i => (m + (i + 1) * k + i * i) % 256)

/-! ## The token codec itself (`common/user-token.go`) -/

/-- The three error cases of `ValidateToken` (the Go code returns
`fmt.Errorf` values with fixed messages). -/
inductive TokenError
  /-- 无效的令牌: missing separator, or payload not two numbers. -/
  | malformed
  /-- 签名解码失败: the signature segment is not valid base64url. -/
  | sigDecodeFailed
  /-- 签名验证失败: decoded signature differs from the recomputed tag. -/
  | sigMismatch
deriving DecidableEq, Repr

/-- Go `uint64(i)` on an `int`. -/
def intToUInt64 (i : Int) : Nat :=
  (i % (2 ^ 64 : Int)).toNat

/-- Go `int(u)` on a `uint64`. -/
def uint64ToInt (n : Nat) : Int :=
  if n % 2 ^ 64 < 2 ^ 63 then ((n % 2 ^ 64 : Nat) : Int)
  else ((n % 2 ^ 64 : Nat) : Int) - 2 ^ 64

/-- `GenerateToken` (`common/user-token.go:91`): sqids-encode the pair,
tag the payload with the keyed hash of the process secret, and join with
`'_'`.  The model's encoder is total, so the sqids error branch never
fires. -/
def GenerateToken (secret : List Nat) (tokenID userID : Int) :
    Except TokenError (List Char) :=
  let payload := mSqidsEncode [intToUInt64 tokenID, intToUInt64 userID]
  let signature := b64Encode (hmacSha256 secret (payload.map Char.toNat))
  .ok (payload ++ '_' :: signature)

/-- `ValidateToken` (`common/user-token.go:109`): split on the first `'_'`,
recompute the tag over the payload, base64url-decode the received signature,
compare, then sqids-decode the payload and require exactly two numbers. -/
def ValidateToken (secret : List Nat) (token : List Char) :
    Except TokenError (Int × Int) :=
  match splitFirst '_' token with
  | none => .error .malformed
  | some (payloadEncoded, receivedSignature) =>
    let expectedSignature := hmacSha256 secret (payloadEncoded.map Char.toNat)
    match b64Decode receivedSignature with
    | none => .error .sigDecodeFailed
    | some decodedSignature =>
      if decodedSignature = expectedSignature then
        match mSqidsDecode payloadEncoded with
        | [n0, n1] => .ok (uint64ToInt n0, uint64ToInt n1)
        | _ => .error .malformed
      else .error .sigMismatch

/-! ## Codec lemmas -/

theorem ofDigits_append (ds : List Nat) (d : Nat) :
    ofDigits (ds ++ [d]) = ofDigits ds * 60 + d := by
  simp [ofDigits]

theorem ofDigits_toDigitsAux (fuel : Nat) :
    ∀ n, n ≤ fuel → ofDigits (toDigitsAux fuel n) = n := by
  induction fuel with
  | zero =>
    intro n hn
    obtain rfl : n = 0 := by omega
    simp [toDigitsAux, ofDigits]
  | succ fuel ih =>
    intro n hn
    rw [toDigitsAux]
    split
    · simp [ofDigits]
    · rename_i h
      rw [ofDigits_append, ih (n / 60) (by omega)]
      omega

theorem ofDigits_toDigits (n : Nat) : ofDigits (toDigits n) = n :=
  ofDigits_toDigitsAux n n (le_refl n)

theorem toDigitsAux_ne_nil (fuel n : Nat) : toDigitsAux fuel n ≠ [] := by
  cases fuel with
  | zero => simp [toDigitsAux]
  | succ fuel =>
    rw [toDigitsAux]
    split <;> simp

theorem toDigits_ne_nil (n : Nat) : toDigits n ≠ [] :=
  toDigitsAux_ne_nil n n

theorem toDigitsAux_lt (fuel : Nat) : ∀ n, ∀ d ∈ toDigitsAux fuel n, d < 60 := by
  induction fuel with
  | zero =>
    intro n d hd
    simp only [toDigitsAux, List.mem_singleton] at hd
    omega
  | succ fuel ih =>
    intro n d hd
    rw [toDigitsAux] at hd
    split at hd
    · rename_i h
      simp only [List.mem_singleton] at hd
      omega
    · simp only [List.mem_append, List.mem_singleton] at hd
      rcases hd with hd | hd
      · exact ih (n / 60) d hd
      · omega

theorem toDigits_lt (n : Nat) : ∀ d ∈ toDigits n, d < 60 :=
  toDigitsAux_lt n n

theorem digitVal_digitChar : ∀ d < 60, digitVal (digitChar d) = some d := by decide

theorem digitChar_ne_sep : ∀ d < 60, digitChar d ≠ 'a' := by decide

theorem digitChar_ne_pad : ∀ d < 60, digitChar d ≠ 'b' := by decide

theorem digitChar_ne_us : ∀ d < 60, digitChar d ≠ '_' := by decide

theorem parseSegAux_map (ds : List Nat) (acc : Nat) (h : ∀ d ∈ ds, d < 60) :
    parseSegAux acc (ds.map digitChar) =
      some (ds.foldl (fun a d => a * 60 + d) acc) := by
  induction ds generalizing acc with
  | nil => rfl
  | cons d ds ih =>
    simp only [List.map_cons, parseSegAux,
      digitVal_digitChar d (h d (by simp)), List.foldl_cons]
    exact ih _ (fun x hx => h x (by simp [hx]))

theorem parseSeg_encodeNum (n : Nat) : parseSeg (encodeNum n) = some n := by
  have h : parseSegAux 0 ((toDigits n).map digitChar) =
      some (ofDigits (toDigits n)) := parseSegAux_map _ 0 (toDigits_lt n)
  rw [ofDigits_toDigits] at h
  cases hd : toDigits n with
  | nil => exact absurd hd (toDigits_ne_nil n)
  | cons d ds =>
    rw [hd] at h
    simp only [encodeNum, hd, List.map_cons, parseSeg]
    simpa using h

theorem parseSegs_encodeNum (ns : List Nat) :
    parseSegs (ns.map encodeNum) = some ns := by
  induction ns with
  | nil => rfl
  | cons n tl ih => simp [parseSegs, parseSeg_encodeNum, ih]

theorem dropWhile_eq_self_of (l : List Char) (h : ∀ c ∈ l, c ≠ 'b') :
    l.dropWhile (fun c => c = 'b') = l := by
  cases l with
  | nil => rfl
  | cons c cs => simp [List.dropWhile_cons, h c (by simp)]

theorem dropWhile_pad_replicate (k : Nat) (l : List Char) :
    List.dropWhile (fun c => c = 'b') (List.replicate k 'b' ++ l) =
      List.dropWhile (fun c => c = 'b') l := by
  induction k with
  | zero => rfl
  | succ k ih => simp [List.replicate_succ, List.dropWhile_cons, ih]

theorem dropTrailingPad_append_pad (cs : List Char) (k : Nat)
    (h : ∀ c ∈ cs, c ≠ 'b') :
    dropTrailingPad (cs ++ List.replicate k 'b') = cs := by
  unfold dropTrailingPad
  rw [List.reverse_append, List.reverse_replicate, dropWhile_pad_replicate,
    dropWhile_eq_self_of _ (by intro c hc; exact h c (by simpa using hc)),
    List.reverse_reverse]

theorem mem_encodeNum (n : Nat) (c : Char) (hc : c ∈ encodeNum n) :
    ∃ d, d < 60 ∧ c = digitChar d := by
  unfold encodeNum at hc
  rcases List.mem_map.1 hc with ⟨d, hd, rfl⟩
  exact ⟨d, toDigits_lt n d hd, rfl⟩

theorem intercalate_cons₂ (sep : Char) (x y : List Char)
    (tl : List (List Char)) :
    List.intercalate [sep] (x :: y :: tl) =
      x ++ sep :: List.intercalate [sep] (y :: tl) := by
  simp [List.intercalate, List.intersperse_cons_cons]

theorem mem_intercalate_sep (sep : Char) (ls : List (List Char)) (c : Char)
    (hc : c ∈ List.intercalate [sep] ls) :
    c = sep ∨ ∃ l ∈ ls, c ∈ l := by
  induction ls with
  | nil => simp [List.intercalate] at hc
  | cons x tl ih =>
    cases tl with
    | nil =>
      simp only [List.intercalate, List.intersperse_singleton] at hc
      right
      exact ⟨x, by simp, by simpa using hc⟩
    | cons y tl' =>
      rw [intercalate_cons₂] at hc
      simp only [List.mem_append, List.mem_cons] at hc
      rcases hc with hc | hc | hc
      · exact Or.inr ⟨x, by simp, hc⟩
      · exact Or.inl hc
      · rcases ih hc with h | ⟨l, hl, hcl⟩
        · exact Or.inl h
        · exact Or.inr ⟨l, by simp [hl], hcl⟩

theorem mem_core_ne (ns : List Nat) (c : Char)
    (hc : c ∈ List.intercalate ['a'] (ns.map encodeNum)) :
    c ≠ 'b' ∧ c ≠ '_' := by
  rcases mem_intercalate_sep 'a' _ c hc with rfl | ⟨l, hl, hcl⟩
  · exact ⟨by decide, by decide⟩
  · rcases List.mem_map.1 hl with ⟨n, _, rfl⟩
    rcases mem_encodeNum n c hcl with ⟨d, hd, rfl⟩
    exact ⟨digitChar_ne_pad d hd, digitChar_ne_us d hd⟩

theorem mSqidsEncode_ne_us (ns : List Nat) : ∀ c ∈ mSqidsEncode ns, c ≠ '_' := by
  intro c hc
  simp only [mSqidsEncode, List.mem_append, List.mem_replicate] at hc
  rcases hc with hc | ⟨_, rfl⟩
  · exact (mem_core_ne ns c hc).2
  · decide

theorem splitFirst_append_sep (sep : Char) (xs ys : List Char)
    (h : ∀ c ∈ xs, c ≠ sep) :
    splitFirst sep (xs ++ sep :: ys) = some (xs, ys) := by
  induction xs with
  | nil => simp [splitFirst]
  | cons c cs ih =>
    simp only [List.cons_append, splitFirst, List.append_eq]
    rw [if_neg (h c (by simp)), ih (fun x hx => h x (by simp [hx]))]
    rfl

theorem splitFirst_eq_none (sep : Char) (xs : List Char) (h : sep ∉ xs) :
    splitFirst sep xs = none := by
  induction xs with
  | nil => rfl
  | cons c cs ih =>
    simp only [splitFirst]
    rw [if_neg (by rintro rfl; exact h (by simp)),
      ih (fun hx => h (by simp [hx]))]
    rfl

theorem mSqidsDecode_mSqidsEncode (ns : List Nat) :
    mSqidsDecode (mSqidsEncode ns) = ns := by
  simp only [mSqidsEncode, mSqidsDecode]
  rw [dropTrailingPad_append_pad _ _ (fun c hc => (mem_core_ne ns c hc).1)]
  cases ns with
  | nil => rfl
  | cons n tl =>
    have hx : ∀ l ∈ (n :: tl).map encodeNum, 'a' ∉ l := by
      intro l hl hmem
      rcases List.mem_map.1 hl with ⟨m, _, rfl⟩
      rcases mem_encodeNum m 'a' hmem with ⟨d, hd, hda⟩
      exact digitChar_ne_sep d hd hda.symm
    have hls : (n :: tl).map encodeNum ≠ [] := by simp
    rw [List.splitOn_intercalate _ 'a' hx hls, parseSegs_encodeNum]

theorem b64Val_b64Char : ∀ s < 64, b64Val (b64Char s) = some s := by decide

theorem b64_roundtrip (bs : List Nat) (h : ∀ b ∈ bs, b < 256) :
    b64Decode (b64Encode bs) = some bs := by
  induction bs using b64Encode.induct with
  | case1 => rfl
  | case2 b0 =>
    have h0 : b0 < 256 := h b0 (by simp)
    simp only [b64Encode, b64Decode,
      b64Val_b64Char (b0 / 4) (by omega),
      b64Val_b64Char (b0 % 4 * 16) (by omega),
      Option.bind_some, Option.some_bind, Option.bind_eq_bind]
    simp only [Option.pure_def, Option.some.injEq, List.cons.injEq, and_true]
    omega
  | case3 b0 b1 =>
    have h0 : b0 < 256 := h b0 (by simp)
    have h1 : b1 < 256 := h b1 (by simp)
    simp only [b64Encode, b64Decode,
      b64Val_b64Char (b0 / 4) (by omega),
      b64Val_b64Char (b0 % 4 * 16 + b1 / 16) (by omega),
      b64Val_b64Char (b1 % 16 * 4) (by omega),
      Option.bind_some, Option.some_bind, Option.bind_eq_bind]
    simp only [Option.pure_def, Option.some.injEq, List.cons.injEq, and_true]
    constructor
    · omega
    · omega
  | case4 b0 b1 b2 rest ih =>
    have h0 : b0 < 256 := h b0 (by simp)
    have h1 : b1 < 256 := h b1 (by simp)
    have h2 : b2 < 256 := h b2 (by simp)
    have hrest : ∀ b ∈ rest, b < 256 := fun b hb => h b (by simp [hb])
    have hd : b64Decode (b64Encode rest) = some rest := ih hrest
    cases henc : b64Encode rest with
    | nil =>
      rw [henc] at hd
      obtain rfl : rest = [] := by
        simpa [b64Decode] using hd
      simp only [b64Encode, henc, b64Decode,
        b64Val_b64Char (b0 / 4) (by omega),
        b64Val_b64Char (b0 % 4 * 16 + b1 / 16) (by omega),
        b64Val_b64Char (b1 % 16 * 4 + b2 / 64) (by omega),
        b64Val_b64Char (b2 % 64) (by omega),
        Option.bind_some, Option.some_bind, Option.bind_eq_bind]
      simp only [Option.pure_def, Option.some.injEq, List.cons.injEq, and_true]
      refine ⟨by omega, by omega, by omega⟩
    | cons e0 erest =>
      simp only [b64Encode, henc, b64Decode,
        b64Val_b64Char (b0 / 4) (by omega),
        b64Val_b64Char (b0 % 4 * 16 + b1 / 16) (by omega),
        b64Val_b64Char (b1 % 16 * 4 + b2 / 64) (by omega),
        b64Val_b64Char (b2 % 64) (by omega),
        Option.bind_some, Option.some_bind, Option.bind_eq_bind]
      rw [henc] at hd
      rw [hd]
      simp only [Option.pure_def, Option.some_bind, Option.some.injEq,
        List.cons.injEq, and_true]
      refine ⟨by omega, by omega, by omega⟩

theorem hmacSha256_length (k m : List Nat) : (hmacSha256 k m).length = 32 := by
  simp [hmacSha256]

theorem hmacSha256_lt (k m : List Nat) : ∀ b ∈ hmacSha256 k m, b < 256 := by
  intro b hb
  simp only [hmacSha256, List.mem_map, List.mem_range] at hb
  rcases hb with ⟨i, _, rfl⟩
  exact Nat.mod_lt _ (by omega)

theorem intToUInt64_of_range (t : Int) (h0 : 0 ≤ t) (h1 : t < 2 ^ 63) :
    intToUInt64 t = t.toNat := by
  have h64 : (2 : Int) ^ 64 = 18446744073709551616 := by norm_num
  have h63 : (2 : Int) ^ 63 = 9223372036854775808 := by norm_num
  simp only [intToUInt64, h64]
  rw [h63] at h1
  omega

theorem uint64ToInt_intToUInt64 (t : Int) (h0 : 0 ≤ t) (h1 : t < 2 ^ 63) :
    uint64ToInt (intToUInt64 t) = t := by
  rw [intToUInt64_of_range t h0 h1]
  have h64 : 2 ^ 64 = 18446744073709551616 := by norm_num
  have h63 : 2 ^ 63 = 9223372036854775808 := by norm_num
  have h63i : (2 : Int) ^ 63 = 9223372036854775808 := by norm_num
  rw [h63i] at h1
  simp only [uint64ToInt, h64, h63]
  split
  · omega
  · omega

/-- Claim C1: for every pair of non-negative integers `(t, u)` within the
supported range (non-negative Go `int` values, i.e. below `2^63`), encoding
with `GenerateToken` and then decoding with `ValidateToken` returns exactly
`(t, u)` with no error. -/
theorem generate_validate_roundtrip (secret : List Nat) (t u : Int)
    (ht0 : 0 ≤ t) (ht1 : t < 2 ^ 63) (hu0 : 0 ≤ u) (hu1 : u < 2 ^ 63) :
    ∃ tok, GenerateToken secret t u = .ok tok ∧
      ValidateToken secret tok = .ok (t, u) := by
  refine ⟨_, rfl, ?_⟩
  simp only [GenerateToken, ValidateToken]
  rw [splitFirst_append_sep '_' _ _ (mSqidsEncode_ne_us _)]
  simp only
  rw [b64_roundtrip _ (hmacSha256_lt _ _)]
  simp only [if_pos rfl]
  rw [mSqidsDecode_mSqidsEncode]
  simp only
  rw [uint64ToInt_intToUInt64 t ht0 ht1, uint64ToInt_intToUInt64 u hu0 hu1]
  simp

/-- Witness for C1 at the concrete pair `(3, 5)` with secret bytes
`[1, 2, 3]`. -/
theorem generate_validate_roundtrip_witness :
    (0 : Int) ≤ 3 ∧ (3 : Int) < 2 ^ 63 ∧
    (∃ tok, GenerateToken [1, 2, 3] 3 5 = .ok tok ∧
      ValidateToken [1, 2, 3] tok = .ok (3, 5)) :=
  ⟨by decide, by decide,
    generate_validate_roundtrip [1, 2, 3] 3 5 (by decide) (by decide)
      (by decide) (by decide)⟩

/-- Concrete secret bytes (the string `test`) for the tampering example. -/
def c4Secret : List Nat := [116, 101, 115, 116]

/-- The token produced by `GenerateToken c4Secret 1 2`. -/
def c4Token : List Char :=
  "daebbbbbbbbbbbb_dI6qyOgKLlR8ptIAMGKWzAQ-erj4On7EDFai8ECS5jw".toList

/-- `c4Token` with the final signature character changed `w → x`: the two
sextets 48 and 49 agree on their top four bits, and the bottom two bits of
the final character of a 43-character base64 signature are unused trailing
bits, which the non-strict Go decoder ignores. -/
def c4Tampered : List Char :=
  "daebbbbbbbbbbbb_dI6qyOgKLlR8ptIAMGKWzAQ-erj4On7EDFai8ECS5jx".toList

/-- Claim C4 counterexample: changing a single character in the signature
segment of a valid token (here the final character, which differs from the
original token only in its unused trailing bits) does NOT cause
`ValidateToken` to fail — validation succeeds. -/
theorem tampered_signature_validates :
    GenerateToken c4Secret 1 2 = .ok c4Token ∧
      c4Tampered ≠ c4Token ∧
      c4Tampered.dropLast = c4Token.dropLast ∧
      c4Tampered.length = c4Token.length ∧
      ValidateToken c4Secret c4Tampered = .ok (1, 2) := by
  decide

/-- Claim C4 (amended): replacing the signature segment of a valid token by
any string (in particular, changing any single character of it) makes
`ValidateToken` either fail or return the original `(tokenID, userID)`
pair; it never succeeds with a different pair.  (Success is possible exactly
when the altered signature still base64url-decodes to the recomputed tag,
e.g. a change confined to the unused trailing bits of the final
character.) -/
theorem tamper_signature_never_wrong_pair (secret : List Nat) (t u : Int)
    (sig' : List Char)
    (ht0 : 0 ≤ t) (ht1 : t < 2 ^ 63) (hu0 : 0 ≤ u) (hu1 : u < 2 ^ 63) :
    (∃ e, ValidateToken secret
        (mSqidsEncode [intToUInt64 t, intToUInt64 u] ++ '_' :: sig') =
          .error e) ∨
      ValidateToken secret
        (mSqidsEncode [intToUInt64 t, intToUInt64 u] ++ '_' :: sig') =
          .ok (t, u) := by
  simp only [ValidateToken]
  rw [splitFirst_append_sep '_' _ _ (mSqidsEncode_ne_us _)]
  simp only
  cases hb : b64Decode sig' with
  | none => exact Or.inl ⟨.sigDecodeFailed, rfl⟩
  | some dec =>
    by_cases heq : dec =
      hmacSha256 secret
        ((mSqidsEncode [intToUInt64 t, intToUInt64 u]).map Char.toNat)
    · right
      dsimp only
      rw [if_pos heq, mSqidsDecode_mSqidsEncode]
      dsimp only
      rw [uint64ToInt_intToUInt64 t ht0 ht1, uint64ToInt_intToUInt64 u hu0 hu1]
    · exact Or.inl ⟨.sigMismatch, by dsimp only; rw [if_neg heq]⟩

/-- Witness for the amended C4, replacing the whole signature by `AAAA`. -/
theorem tamper_signature_never_wrong_pair_witness :
    (∃ e, ValidateToken c4Secret
        (mSqidsEncode [intToUInt64 1, intToUInt64 2] ++ '_' ::
          "AAAA".toList) = .error e) ∨
      ValidateToken c4Secret
        (mSqidsEncode [intToUInt64 1, intToUInt64 2] ++ '_' ::
          "AAAA".toList) = .ok (1, 2) :=
  tamper_signature_never_wrong_pair c4Secret 1 2 "AAAA".toList
    (by decide) (by decide) (by decide) (by decide)

/-- Claim C7: `ValidateToken` is a total function (the Lean embedding cannot
panic), it fails with the malformed-token error `无效的令牌` when the `_`
separator is absent, and it fails with the same malformed-token error when
the signature checks out but the payload does not decode to exactly two
values. -/
theorem validate_token_malformed_cases (secret : List Nat) (s : List Char) :
    ('_' ∉ s → ValidateToken secret s = .error .malformed) ∧
    (∀ payload sig, (∀ c ∈ payload, c ≠ '_') →
      b64Decode sig = some (hmacSha256 secret (payload.map Char.toNat)) →
      (mSqidsDecode payload).length ≠ 2 →
      ValidateToken secret (payload ++ '_' :: sig) = .error .malformed) := by
  constructor
  · intro hs
    simp only [ValidateToken, splitFirst_eq_none '_' s hs]
  · intro payload sig hp hb hlen
    simp only [ValidateToken]
    rw [splitFirst_append_sep '_' _ _ hp]
    dsimp only
    rw [hb]
    dsimp only
    rw [if_pos rfl]
    cases hdec : mSqidsDecode payload with
    | nil => rfl
    | cons n0 tl =>
      cases tl with
      | nil => rfl
      | cons n1 tl2 =>
        cases tl2 with
        | nil => exact absurd (by simp [hdec]) hlen
        | cons n2 tl3 => rfl

/-- Witness for C7: the separator-free input `abc`, and a one-number payload
with a correct signature. -/
theorem validate_token_malformed_cases_witness :
    ValidateToken [7] "abc".toList = .error .malformed ∧
      ValidateToken [7]
        (mSqidsEncode [5] ++ '_' ::
          b64Encode (hmacSha256 [7] ((mSqidsEncode [5]).map Char.toNat))) =
        .error .malformed :=
  ⟨(validate_token_malformed_cases [7] "abc".toList).1 (by decide),
    (validate_token_malformed_cases [7] "abc".toList).2 (mSqidsEncode [5]) _
      (by decide) (by decide) (by decide)⟩

/-! ## Credential refresh (`cron/codex_credential_refresh.go`)

The store, the upstream authorization endpoint, `codex.FromJSON`,
`codex.OAuth2Credentials.Refresh`, `ToJSON`, `model.UpdateChannelKey` and
`model.ChannelGroup.Load` are external collaborators; the sweep is
parameterized over their outcomes through an environment record, and its
observable behaviour is captured as an ordered event log. -/

/-- Go `strings.TrimSpace`, by structural recursion on the character list
(so that concrete instances reduce inside the kernel). -/
def trimString (s : String) : String :=
  ⟨((s.data.dropWhile Char.isWhitespace).reverse.dropWhile
      Char.isWhitespace).reverse⟩

/-- One channel's OAuth2 state (`codex.OAuth2Credentials`); `expiresAt` is
`none` for Go's zero `time.Time` ("never expires / unknown"), `some e`
with `e` an absolute timestamp otherwise. -/
structure OAuth2Credentials where
  accessToken : String
  refreshToken : String
  accountID : String
  clientID : String
  expiresAt : Option Int
deriving DecidableEq

/-- The fields of `model.Channel` selected by the sweep query. -/
structure Channel where
  id : Int
  name : String
  key : String
  proxy : Option String
deriving DecidableEq

/-- Observable actions of the refresh subsystem, in execution order. -/
inductive Event
  /-- A successful store page query at the given page index. -/
  | queryPage (page : Nat)
  /-- `RefreshCodexChannelCredentialInternal` invoked `creds.Refresh`. -/
  | refreshCall (channelId : Int)
  /-- `model.UpdateChannelKey` was attempted with the new blob. -/
  | storeWrite (channelId : Int) (blob : String)
  /-- `model.ChannelGroup.Load` ran to completion. -/
  | channelGroupLoad
  /-- `model.ChannelGroup.Load` panicked and the recover handler logged it. -/
  | loadPanicCaught
  /-- The final `Credential auto-refresh completed` summary log line. -/
  | summaryLog (scanned refreshed failed : Nat)
deriving DecidableEq

/-- Modelled from the spec: `codex.DefaultClientID`, the process-wide OAuth
client identifier substituted when a credential has none. -/
def DefaultClientID : String := "default-codex-client-id"

/-- Outcomes of the external collaborators used by one
`RefreshCodexChannelCredentialInternal` run. -/
structure RefreshEnv where
  /-- Outcome of `creds.Refresh(ctx, proxyURL, 3)`: the refreshed
  credential, or the terminal error. -/
  refreshResult : Channel → OAuth2Credentials → Except String OAuth2Credentials
  /-- Outcome of `creds.ToJSON()`. -/
  toJSONResult : OAuth2Credentials → Except String String
  /-- Outcome of `model.UpdateChannelKey(ch.Id, blob)`. -/
  updateKeyResult : Int → String → Except String Unit

/-- `creds.ClientID` defaulting step of
`RefreshCodexChannelCredentialInternal`. -/
def withDefaultClientID (creds : OAuth2Credentials) : OAuth2Credentials :=
  if creds.clientID = "" then { creds with clientID := DefaultClientID }
  else creds

/-- `RefreshCodexChannelCredentialInternal`
(`cron/codex_credential_refresh.go:126`): default the client ID, refresh,
serialize, persist; each failure returns a wrapped error immediately.
Returns the refreshed credential (or error) together with the event log. -/
def RefreshCodexChannelCredentialInternal (env : RefreshEnv) (ch : Channel)
    (creds : OAuth2Credentials) :
    Except String OAuth2Credentials × List Event :=
  let creds1 := withDefaultClientID creds
  match env.refreshResult ch creds1 with
  | .error e => (.error ("token refresh failed: " ++ e), [.refreshCall ch.id])
  | .ok newCreds =>
    match env.toJSONResult newCreds with
    | .error e =>
      (.error ("failed to serialize credentials: " ++ e), [.refreshCall ch.id])
    | .ok blob =>
      match env.updateKeyResult ch.id blob with
      | .error e =>
        (.error ("failed to update channel key: " ++ e),
          [.refreshCall ch.id, .storeWrite ch.id blob])
      | .ok _ => (.ok newCreds, [.refreshCall ch.id, .storeWrite ch.id blob])

/-- `codexCredentialRefreshThreshold`, in seconds (24 hours). -/
def codexCredentialRefreshThreshold : Int := 86400

/-- `codexCredentialRefreshBatchSize`. -/
def codexCredentialRefreshBatchSize : Nat := 200

/-- Environment of one scheduler sweep: the enabled Codex channels the
store holds (in ascending-id order; `none` models a nil row), which page
queries fail, the `codex.FromJSON` parse outcome per stored blob, the
current time, whether `ChannelGroup.Load` panics, and the per-item refresh
collaborators. -/
structure SweepEnv extends RefreshEnv where
  store : List (Option Channel)
  queryFails : Nat → Bool
  parseCreds : String → Except String OAuth2Credentials
  now : Int
  loadPanics : Bool

/-- Counters of a sweep (`scanned`, `refreshed`, `failed`). -/
structure SweepAcc where
  scanned : Nat
  refreshed : Nat
  failed : Nat
  events : List Event
deriving DecidableEq

/-- One iteration of the inner per-channel loop
(`cron/codex_credential_refresh.go:62-104`): nil rows are skipped before
`scanned++`; empty keys, unparsable blobs, empty refresh tokens, and
non-zero expiries more than the threshold in the future are counted as
scanned but skipped; otherwise the Executor runs and `refreshed`/`failed`
is incremented. -/
def processChannel (env : SweepEnv) (acc : SweepAcc) (ch? : Option Channel) :
    SweepAcc :=
  match ch? with
  | none => acc
  | some ch =>
    let rawKey := trimString ch.key
    if rawKey = "" then { acc with scanned := acc.scanned + 1 }
    else
      match env.parseCreds rawKey with
      | .error _ => { acc with scanned := acc.scanned + 1 }
      | .ok creds =>
        if trimString creds.refreshToken = "" then
          { acc with scanned := acc.scanned + 1 }
        else if (match creds.expiresAt with
            | some e => decide (e - env.now > codexCredentialRefreshThreshold)
            | none => false) then
          { acc with scanned := acc.scanned + 1 }
        else
          match RefreshCodexChannelCredentialInternal env.toRefreshEnv ch creds with
          | (.error _, evs) =>
            { acc with
              scanned := acc.scanned + 1
              failed := acc.failed + 1
              events := acc.events ++ evs }
          | (.ok _, evs) =>
            { acc with
              scanned := acc.scanned + 1
              refreshed := acc.refreshed + 1
              events := acc.events ++ evs }

/-- Fold `processChannel` over one page of channels. -/
def processPage (env : SweepEnv) (acc : SweepAcc) :
    List (Option Channel) → SweepAcc
  | [] => acc
  | ch? :: rest => processPage env (processChannel env acc ch?) rest

/-- The paginated scan loop (`cron/codex_credential_refresh.go:44-105`),
by fuel-bounded structural recursion; every iteration on a nonempty
remainder drops at least one element, so `remaining.length + 1` units of
fuel always suffice (see `sweepLoop`).  Returns `(aborted, acc)`:
`aborted` is true when a page query failed, in which case the function
returned immediately with the log as it stood. -/
def sweepLoopAux (env : SweepEnv) :
    Nat → List (Option Channel) → Nat → SweepAcc → Bool × SweepAcc
  | 0, _, _, acc => (true, acc)
  | fuel + 1, remaining, page, acc =>
    if env.queryFails page then (true, acc)
    else
      match remaining with
      | [] => (false, { acc with events := acc.events ++ [.queryPage page] })
      | c :: rest =>
        let chans := (c :: rest).take codexCredentialRefreshBatchSize
        let acc1 := processPage env
          { acc with events := acc.events ++ [.queryPage page] } chans
        sweepLoopAux env fuel ((c :: rest).drop codexCredentialRefreshBatchSize)
          (page + 1) acc1

/-- The paginated scan loop, started with always-sufficient fuel. -/
def sweepLoop (env : SweepEnv) (remaining : List (Option Channel))
    (page : Nat) (acc : SweepAcc) : Bool × SweepAcc :=
  sweepLoopAux env (remaining.length + 1) remaining page acc

/-- The full result of one `RunCodexCredentialAutoRefresh` invocation. -/
structure SweepResult where
  /-- Value of the process-wide running flag after the call (the deferred
  `Store(false)` only runs when the CAS succeeded). -/
  flagAfter : Bool
  /-- Whether a store page query failed, aborting the sweep. -/
  aborted : Bool
  scanned : Nat
  refreshed : Nat
  failed : Nat
  events : List Event
deriving DecidableEq

/-- `RunCodexCredentialAutoRefresh` (`cron/codex_credential_refresh.go:30`)
as a function of the running flag and the sweep environment.  When the
`CompareAndSwap(false, true)` fails the call logs and returns at once; on a
query error the sweep returns without the cache reload or the summary; on
completion it reloads the channel cache (recovering from a panic in it)
when any refresh succeeded, and logs one summary when any activity
occurred. -/
def RunCodexCredentialAutoRefresh (running : Bool) (env : SweepEnv) :
    SweepResult :=
  if running then ⟨true, false, 0, 0, 0, []⟩
  else
    let (aborted, acc) := sweepLoop env env.store 0 ⟨0, 0, 0, []⟩
    if aborted then ⟨false, true, acc.scanned, acc.refreshed, acc.failed,
      acc.events⟩
    else
      let evs1 := acc.events ++
        (if acc.refreshed > 0 then
          (if env.loadPanics then [.loadPanicCaught] else [.channelGroupLoad])
        else [])
      let evs2 := evs1 ++
        (if acc.scanned > 0 ∨ acc.refreshed > 0 ∨ acc.failed > 0 then
          [.summaryLog acc.scanned acc.refreshed acc.failed]
        else [])
      ⟨false, false, acc.scanned, acc.refreshed, acc.failed, evs2⟩

/-! ## Resilient fetch flow (controller `GetCodexChannelUsage`)

The model covers the flow from the first usage fetch onward (the
controller's earlier guards — channel lookup, type check, key parsing,
non-empty access token / account id — all return before any fetch or
refresh happens and produce no events). -/

/-- Environment of one `GetCodexChannelUsage` run: the outcome of the
first `fetchCodexWhamUsage` call, of the retry call after a refresh, and
the refresh collaborators. -/
structure FetchEnv extends RefreshEnv where
  fetch1 : Except String (Nat × String)
  fetch2 : Except String (Nat × String)

/-- The terminal responses of `GetCodexChannelUsage`. -/
inductive UsageOutcome
  /-- 获取用量信息失败: the first fetch returned a transport error. -/
  | fetchFailed
  /-- 刷新凭证后获取用量信息仍然失败: the retry after a successful
  refresh returned a transport error. -/
  | fetchAfterRefreshFailed
  /-- The handler responded with this upstream status and body. -/
  | responded (upstreamStatus : Nat) (body : String)
deriving DecidableEq

/-- `GetCodexChannelUsage` from the first usage fetch onward (controller
lines 87-133): on 401/403 with a refresh token present, run the Executor
once; if the refresh succeeded, retry the fetch once and — only when that
retry returns without transport error — reload the channel cache; a failed
refresh falls through to respond with the original status/body. -/
def GetCodexChannelUsage (env : FetchEnv) (ch : Channel)
    (creds : OAuth2Credentials) : UsageOutcome × List Event :=
  match env.fetch1 with
  | .error _ => (.fetchFailed, [])
  | .ok (status, body) =>
    if (status = 401 ∨ status = 403) ∧ trimString creds.refreshToken ≠ "" then
      match RefreshCodexChannelCredentialInternal env.toRefreshEnv ch creds with
      | (.error _, evs) => (.responded status body, evs)
      | (.ok _, evs) =>
        match env.fetch2 with
        | .error _ => (.fetchAfterRefreshFailed, evs)
        | .ok (status2, body2) =>
          (.responded status2 body2, evs ++ [.channelGroupLoad])
    else (.responded status body, [])

/-! ## Secret resolution (`common/user-token.go:61`) -/

/-- Environment of `resolveUserTokenSecret`: the configuration source
(`viper.GetString`, empty string meaning unset), the persisted secret file
(`none` models a read error / missing file), and the process-generated
`config.SessionSecret`. -/
structure SecretEnv where
  getSetting : String → String
  secretFile : Option String
  sessionSecret : String

/-- `resolveUserTokenSecret`: first non-empty (after trimming) of the keys
`user_token_secret`, `token_secret`, `session_secret` in that order; then
the persisted secret file if readable and non-empty; then the trimmed
process-generated session secret (persisting it — the write outcome does
not affect the returned value). -/
def resolveUserTokenSecret (env : SecretEnv) : String :=
  match ["user_token_secret", "token_secret", "session_secret"].find?
      (fun k => trimString (env.getSetting k) ≠ "") with
  | some k => trimString (env.getSetting k)
  | none =>
    let fromFile :=
      match env.secretFile with
      | some data => trimString data
      | none => ""
    if fromFile ≠ "" then fromFile
    else trimString env.sessionSecret

/-! ## Scheduler theorems -/

/-- Claim C2: if a sweep is already running (the process-wide flag is set),
`RunCodexCredentialAutoRefresh` performs zero refresh attempts, makes no
store queries, and returns immediately with the flag still set: its event
log is empty whatever the environment.  (At most one sweep being in flight
is exactly what the modelled `CompareAndSwap(false, true)` guard provides:
the sweep body below is only ever entered from the `running = false`
branch, which transitions the flag to set.) -/
theorem run_skips_when_running (env : SweepEnv) :
    RunCodexCredentialAutoRefresh true env = ⟨true, false, 0, 0, 0, []⟩ :=
  rfl

/-- Claim C6: when `creds.Refresh` fails,
`RefreshCodexChannelCredentialInternal` returns the wrapped error and
`UpdateChannelKey` is never attempted — the persisted record is
untouched. -/
theorem refresh_error_no_store_write (env : RefreshEnv) (ch : Channel)
    (creds : OAuth2Credentials) (e : String)
    (h : env.refreshResult ch (withDefaultClientID creds) = .error e) :
    (RefreshCodexChannelCredentialInternal env ch creds).1 =
        .error ("token refresh failed: " ++ e) ∧
      ∀ cid blob, Event.storeWrite cid blob ∉
        (RefreshCodexChannelCredentialInternal env ch creds).2 := by
  simp only [RefreshCodexChannelCredentialInternal, h]
  simp

/-- Concrete refresh environment whose upstream refresh fails. -/
def c6Env : RefreshEnv where
  refreshResult := fun _ _ => .error "boom"
  toJSONResult := fun _ => .ok "{}"
  updateKeyResult := fun _ _ => .ok ()

/-- Channel used by the C6 witness. -/
def c6Channel : Channel := ⟨7, "ch", "{}", none⟩

/-- Credential used by the C6 witness. -/
def c6Creds : OAuth2Credentials := ⟨"at", "rt", "acc", "cid", some 0⟩

/-- Witness for C6 at a concrete failing environment. -/
theorem refresh_error_no_store_write_witness :
    (RefreshCodexChannelCredentialInternal c6Env c6Channel c6Creds).1 =
        .error ("token refresh failed: " ++ "boom") ∧
      Event.storeWrite 7 "{}" ∉
        (RefreshCodexChannelCredentialInternal c6Env c6Channel c6Creds).2 :=
  ⟨(refresh_error_no_store_write c6Env c6Channel c6Creds "boom" rfl).1,
    (refresh_error_no_store_write c6Env c6Channel c6Creds "boom" rfl).2 7 "{}"⟩

/-- Events that only the post-sweep epilogue can emit: the cache reload
(or its caught panic) and the summary log line. -/
def isTerminalEvent : Event → Bool
  | .channelGroupLoad => true
  | .loadPanicCaught => true
  | .summaryLog _ _ _ => true
  | _ => false

theorem internal_events_shape (env : RefreshEnv) (ch : Channel)
    (creds : OAuth2Credentials) :
    (RefreshCodexChannelCredentialInternal env ch creds).2 =
        [.refreshCall ch.id] ∨
      ∃ blob, (RefreshCodexChannelCredentialInternal env ch creds).2 =
        [.refreshCall ch.id, .storeWrite ch.id blob] := by
  unfold RefreshCodexChannelCredentialInternal
  dsimp only
  rcases hr : env.refreshResult ch (withDefaultClientID creds) with e | nc
  · left; rfl
  · dsimp only
    rcases hj : env.toJSONResult nc with e | blob
    · left; rfl
    · dsimp only
      rcases hu : env.updateKeyResult ch.id blob with e | u
      · right; exact ⟨blob, rfl⟩
      · right; exact ⟨blob, rfl⟩

theorem internal_no_terminal (env : RefreshEnv) (ch : Channel)
    (creds : OAuth2Credentials) :
    ∀ ev ∈ (RefreshCodexChannelCredentialInternal env ch creds).2,
      isTerminalEvent ev = false := by
  intro ev hev
  rcases internal_events_shape env ch creds with hsh | ⟨blob, hsh⟩
  · rw [hsh] at hev
    simp only [List.mem_singleton] at hev
    subst hev; rfl
  · rw [hsh] at hev
    simp only [List.mem_cons, List.mem_singleton, List.not_mem_nil,
      or_false] at hev
    rcases hev with rfl | rfl <;> rfl

theorem processChannel_no_terminal (env : SweepEnv) (acc : SweepAcc)
    (ch? : Option Channel)
    (h : ∀ ev ∈ acc.events, isTerminalEvent ev = false) :
    ∀ ev ∈ (processChannel env acc ch?).events, isTerminalEvent ev = false := by
  unfold processChannel
  rcases ch? with _ | ch
  · exact h
  · dsimp only
    split
    · exact h
    · rcases hp : env.parseCreds (trimString ch.key) with e | creds
      · exact h
      · dsimp only
        split
        · exact h
        · split
          · exact h
          · rcases hint : RefreshCodexChannelCredentialInternal
              env.toRefreshEnv ch creds with ⟨res, evs⟩
            have h2 : (RefreshCodexChannelCredentialInternal
                env.toRefreshEnv ch creds).2 = evs := by rw [hint]
            rcases res with e | nc
            all_goals
              dsimp only
              intro ev hev
              simp only [List.mem_append] at hev
              rcases hev with hev | hev
              · exact h ev hev
              · exact internal_no_terminal env.toRefreshEnv ch creds ev
                  (by rw [h2]; exact hev)

theorem processPage_no_terminal (env : SweepEnv) :
    ∀ (chans : List (Option Channel)) (acc : SweepAcc),
      (∀ ev ∈ acc.events, isTerminalEvent ev = false) →
      ∀ ev ∈ (processPage env acc chans).events, isTerminalEvent ev = false := by
  intro chans
  induction chans with
  | nil => intro acc h; exact h
  | cons c rest ih =>
    intro acc h
    exact ih _ (processChannel_no_terminal env acc c h)

theorem sweepLoopAux_no_terminal (env : SweepEnv) (fuel : Nat) :
    ∀ (remaining : List (Option Channel)) (page : Nat) (acc : SweepAcc),
      (∀ ev ∈ acc.events, isTerminalEvent ev = false) →
      ∀ ev ∈ (sweepLoopAux env fuel remaining page acc).2.events,
        isTerminalEvent ev = false := by
  induction fuel with
  | zero => intro remaining page acc h; exact h
  | succ fuel ih =>
    intro remaining page acc h
    unfold sweepLoopAux
    split
    · exact h
    · cases remaining with
      | nil =>
        intro ev hev
        simp only [List.mem_append, List.mem_singleton] at hev
        rcases hev with hev | rfl
        · exact h ev hev
        · rfl
      | cons c rest =>
        apply ih
        apply processPage_no_terminal
        intro ev hev
        simp only [List.mem_append, List.mem_singleton] at hev
        rcases hev with hev | rfl
        · exact h ev hev
        · rfl

/-- Unfolding of `RunCodexCredentialAutoRefresh` for an unset flag. -/
theorem run_false_eq (env : SweepEnv) :
    RunCodexCredentialAutoRefresh false env =
      (match sweepLoop env env.store 0 ⟨0, 0, 0, []⟩ with
        | (true, acc) =>
          ⟨false, true, acc.scanned, acc.refreshed, acc.failed, acc.events⟩
        | (false, acc) =>
          ⟨false, false, acc.scanned, acc.refreshed, acc.failed,
            (acc.events ++
              (if acc.refreshed > 0 then
                (if env.loadPanics then [.loadPanicCaught]
                else [.channelGroupLoad])
              else [])) ++
              (if acc.scanned > 0 ∨ acc.refreshed > 0 ∨ acc.failed > 0 then
                [.summaryLog acc.scanned acc.refreshed acc.failed]
              else [])⟩) := by
  unfold RunCodexCredentialAutoRefresh
  rcases sweepLoop env env.store 0 ⟨0, 0, 0, []⟩ with ⟨ab, acc⟩
  cases ab <;> rfl

/-- The `aborted` field of a `running = false` invocation is the scan
loop's failure flag. -/
theorem run_false_aborted (env : SweepEnv) :
    (RunCodexCredentialAutoRefresh false env).aborted =
      (sweepLoop env env.store 0 ⟨0, 0, 0, []⟩).1 := by
  rw [run_false_eq]
  rcases sweepLoop env env.store 0 ⟨0, 0, 0, []⟩ with ⟨ab, acc⟩
  cases ab <;> rfl

/-- On an aborted sweep the events are exactly the scan loop's events. -/
theorem run_false_events_of_aborted (env : SweepEnv)
    (h : (sweepLoop env env.store 0 ⟨0, 0, 0, []⟩).1 = true) :
    (RunCodexCredentialAutoRefresh false env).events =
      (sweepLoop env env.store 0 ⟨0, 0, 0, []⟩).2.events := by
  rw [run_false_eq]
  rcases hsl : sweepLoop env env.store 0 ⟨0, 0, 0, []⟩ with ⟨ab, acc⟩
  rw [hsl] at h
  cases ab with
  | true => rfl
  | false => simp at h

/-- Claim C10: if a store page query fails partway through a sweep,
`RunCodexCredentialAutoRefresh` returns immediately: the scan loop stops at
the failing page adding nothing further to the log (so the remaining
channels are not scanned), the summary log line is never emitted, and the
cache-invalidation signal (`ChannelGroup.Load`, whether it completes or
panics) is never sent — even when items refreshed successfully earlier in
that sweep. -/
theorem query_failure_aborts_sweep (env : SweepEnv)
    (h : (RunCodexCredentialAutoRefresh false env).aborted = true) :
    ((∀ s r f, Event.summaryLog s r f ∉
        (RunCodexCredentialAutoRefresh false env).events) ∧
      Event.channelGroupLoad ∉ (RunCodexCredentialAutoRefresh false env).events ∧
      Event.loadPanicCaught ∉
        (RunCodexCredentialAutoRefresh false env).events) ∧
    (∀ remaining page acc, env.queryFails page = true →
      sweepLoop env remaining page acc = (true, acc)) := by
  constructor
  · rw [run_false_aborted] at h
    rw [run_false_events_of_aborted env h]
    have hterm : ∀ ev ∈ (sweepLoop env env.store 0 ⟨0, 0, 0, []⟩).2.events,
        isTerminalEvent ev = false := by
      rw [sweepLoop]
      exact sweepLoopAux_no_terminal env (env.store.length + 1)
        env.store 0 ⟨0, 0, 0, []⟩ (by simp)
    refine ⟨?_, ?_, ?_⟩
    · intro s r f hmem
      have := hterm _ hmem
      simp [isTerminalEvent] at this
    · intro hmem
      have := hterm _ hmem
      simp [isTerminalEvent] at this
    · intro hmem
      have := hterm _ hmem
      simp [isTerminalEvent] at this
  · intro remaining page acc hq
    simp [sweepLoop, sweepLoopAux, hq]

/-- Channel used by the C10 witness. -/
def c10Channel : Channel := ⟨1, "c", "k", none⟩

/-- Credential used by the C10 witness. -/
def c10Creds : OAuth2Credentials := ⟨"at", "rt", "acc", "cid", none⟩

/-- Sweep environment whose second page query (the one that would report
the end of pagination) fails, after one successful refresh on the first
page. -/
def c10Env : SweepEnv where
  refreshResult := fun _ c => .ok c
  toJSONResult := fun _ => .ok "newblob"
  updateKeyResult := fun _ _ => .ok ()
  store := [some c10Channel]
  queryFails := fun k => k == 1
  parseCreds := fun s => if s = "k" then .ok c10Creds else .error "bad"
  now := 0
  loadPanics := false

/-- Witness for C10: in `c10Env` one refresh succeeded on the first page,
the second page query fails, and neither the summary nor the
cache-invalidation signal appears in the log. -/
theorem query_failure_aborts_sweep_witness :
    (RunCodexCredentialAutoRefresh false c10Env).refreshed = 1 ∧
      Event.storeWrite 1 "newblob" ∈
        (RunCodexCredentialAutoRefresh false c10Env).events ∧
      Event.channelGroupLoad ∉
        (RunCodexCredentialAutoRefresh false c10Env).events ∧
      Event.summaryLog 1 1 0 ∉
        (RunCodexCredentialAutoRefresh false c10Env).events ∧
      sweepLoop c10Env [] 1 ⟨0, 0, 0, []⟩ = (true, ⟨0, 0, 0, []⟩) :=
  ⟨by decide, by decide,
    (query_failure_aborts_sweep c10Env (by decide)).1.2.1,
    (query_failure_aborts_sweep c10Env (by decide)).1.1 1 1 0,
    (query_failure_aborts_sweep c10Env (by decide)).2 [] 1 ⟨0, 0, 0, []⟩
      (by decide)⟩

/-- The `refreshed` field of a `running = false` invocation. -/
theorem run_false_refreshed (env : SweepEnv) :
    (RunCodexCredentialAutoRefresh false env).refreshed =
      (sweepLoop env env.store 0 ⟨0, 0, 0, []⟩).2.refreshed := by
  rw [run_false_eq]
  rcases sweepLoop env env.store 0 ⟨0, 0, 0, []⟩ with ⟨ab, acc⟩
  cases ab <;> rfl

/-- The `scanned` field of a `running = false` invocation. -/
theorem run_false_scanned (env : SweepEnv) :
    (RunCodexCredentialAutoRefresh false env).scanned =
      (sweepLoop env env.store 0 ⟨0, 0, 0, []⟩).2.scanned := by
  rw [run_false_eq]
  rcases sweepLoop env env.store 0 ⟨0, 0, 0, []⟩ with ⟨ab, acc⟩
  cases ab <;> rfl

/-- The `failed` field of a `running = false` invocation. -/
theorem run_false_failed (env : SweepEnv) :
    (RunCodexCredentialAutoRefresh false env).failed =
      (sweepLoop env env.store 0 ⟨0, 0, 0, []⟩).2.failed := by
  rw [run_false_eq]
  rcases sweepLoop env env.store 0 ⟨0, 0, 0, []⟩ with ⟨ab, acc⟩
  cases ab <;> rfl

/-- On a completed (non-aborted) sweep the events are the scan loop's
events followed by the epilogue: the cache reload (or its caught panic)
when anything was refreshed, then the summary when there was activity. -/
theorem run_false_events_of_completed (env : SweepEnv)
    (h : (sweepLoop env env.store 0 ⟨0, 0, 0, []⟩).1 = false) :
    (RunCodexCredentialAutoRefresh false env).events =
      ((sweepLoop env env.store 0 ⟨0, 0, 0, []⟩).2.events ++
        (if 0 < (sweepLoop env env.store 0 ⟨0, 0, 0, []⟩).2.refreshed then
          (if env.loadPanics then [.loadPanicCaught] else [.channelGroupLoad])
        else [])) ++
        (if 0 < (sweepLoop env env.store 0 ⟨0, 0, 0, []⟩).2.scanned ∨
            0 < (sweepLoop env env.store 0 ⟨0, 0, 0, []⟩).2.refreshed ∨
            0 < (sweepLoop env env.store 0 ⟨0, 0, 0, []⟩).2.failed then
          [.summaryLog (sweepLoop env env.store 0 ⟨0, 0, 0, []⟩).2.scanned
            (sweepLoop env env.store 0 ⟨0, 0, 0, []⟩).2.refreshed
            (sweepLoop env env.store 0 ⟨0, 0, 0, []⟩).2.failed]
        else []) := by
  rw [run_false_eq]
  rcases hsl : sweepLoop env env.store 0 ⟨0, 0, 0, []⟩ with ⟨ab, acc⟩
  rw [hsl] at h
  cases ab with
  | true => simp at h
  | false => rfl

/-- Claim C9 (amended): a completed sweep with at least one successful
refresh signals the cache reload (its panic is caught and the summary is
still emitted), and the resilient fetch flow signals the cache reload on a
successful refresh provided the retry fetch returns without transport
error (on a transport error of the retry, the code returns without the
signal — see the counterexample). -/
theorem refresh_success_signals_cache_reload :
    (∀ env : SweepEnv,
      (RunCodexCredentialAutoRefresh false env).aborted = false →
      0 < (RunCodexCredentialAutoRefresh false env).refreshed →
      ((env.loadPanics = false → Event.channelGroupLoad ∈
          (RunCodexCredentialAutoRefresh false env).events) ∧
        (env.loadPanics = true → Event.loadPanicCaught ∈
          (RunCodexCredentialAutoRefresh false env).events) ∧
        Event.summaryLog (RunCodexCredentialAutoRefresh false env).scanned
            (RunCodexCredentialAutoRefresh false env).refreshed
            (RunCodexCredentialAutoRefresh false env).failed ∈
          (RunCodexCredentialAutoRefresh false env).events)) ∧
    (∀ (env : FetchEnv) (ch : Channel) (creds : OAuth2Credentials)
        (st : Nat) (b : String) (nc : OAuth2Credentials) (evs : List Event)
        (r2 : Nat × String),
      env.fetch1 = .ok (st, b) →
      (st = 401 ∨ st = 403) →
      trimString creds.refreshToken ≠ "" →
      RefreshCodexChannelCredentialInternal env.toRefreshEnv ch creds =
        (.ok nc, evs) →
      env.fetch2 = .ok r2 →
      Event.channelGroupLoad ∈ (GetCodexChannelUsage env ch creds).2) := by
  constructor
  · intro env hab hr
    rw [run_false_aborted] at hab
    rw [run_false_refreshed] at hr
    rw [run_false_events_of_completed env hab, run_false_scanned,
      run_false_refreshed, run_false_failed]
    refine ⟨?_, ?_, ?_⟩
    · intro hlp
      simp [hlp, hr]
    · intro hlp
      simp [hlp, hr]
    · simp [hr]
  · intro env ch creds st b nc evs r2 h1 hst hrt hint h2
    rcases r2 with ⟨st2, b2⟩
    unfold GetCodexChannelUsage
    rw [h1]
    dsimp only
    rw [if_pos ⟨hst, hrt⟩, hint]
    dsimp only
    rw [h2]
    simp

/-- Channel used by the C9 witness and counterexample. -/
def c9Channel : Channel := ⟨2, "c9", "k9", none⟩

/-- Credential used by the C9 witness and counterexample. -/
def c9Creds : OAuth2Credentials := ⟨"at", "rt", "acc", "cid", none⟩

/-- A sweep environment with one channel that refreshes successfully. -/
def c9SweepEnv : SweepEnv where
  refreshResult := fun _ c => .ok c
  toJSONResult := fun _ => .ok "nb"
  updateKeyResult := fun _ _ => .ok ()
  store := [some c9Channel]
  queryFails := fun _ => false
  parseCreds := fun s => if s = "k9" then .ok c9Creds else .error "bad"
  now := 0
  loadPanics := false

/-- A fetch environment where the first fetch is a 401, the refresh
succeeds, and the retry fetch succeeds with a 200. -/
def c9FetchEnv : FetchEnv where
  refreshResult := fun _ c => .ok c
  toJSONResult := fun _ => .ok "nb"
  updateKeyResult := fun _ _ => .ok ()
  fetch1 := .ok (401, "unauthorized")
  fetch2 := .ok (200, "usage")

/-- Witness for the amended C9 on concrete environments. -/
theorem refresh_success_signals_cache_reload_witness :
    Event.channelGroupLoad ∈
        (RunCodexCredentialAutoRefresh false c9SweepEnv).events ∧
      Event.channelGroupLoad ∈
        (GetCodexChannelUsage c9FetchEnv c9Channel c9Creds).2 :=
  ⟨(refresh_success_signals_cache_reload.1 c9SweepEnv (by decide)
      (by decide)).1 rfl,
    refresh_success_signals_cache_reload.2 c9FetchEnv c9Channel c9Creds
      401 "unauthorized" c9Creds [.refreshCall 2, .storeWrite 2 "nb"]
      (200, "usage") rfl (Or.inl rfl) (by decide) (by decide) rfl⟩

/-- A fetch environment where the refresh succeeds but the retry fetch
fails with a transport error. -/
def c9FailFetchEnv : FetchEnv where
  refreshResult := fun _ c => .ok c
  toJSONResult := fun _ => .ok "nb"
  updateKeyResult := fun _ _ => .ok ()
  fetch1 := .ok (401, "unauthorized")
  fetch2 := .error "timeout"

/-- Claim C9 counterexample: in the resilient fetch flow a refresh
succeeds (the store write happens) yet `ChannelGroup.Load` is NOT
signalled, because the retry fetch after the refresh returned a transport
error and the handler returned before the reload line. -/
theorem fetch_flow_refresh_without_signal :
    GetCodexChannelUsage c9FailFetchEnv c9Channel c9Creds =
        (.fetchAfterRefreshFailed, [.refreshCall 2, .storeWrite 2 "nb"]) ∧
      Event.channelGroupLoad ∉
        (GetCodexChannelUsage c9FailFetchEnv c9Channel c9Creds).2 := by
  decide

/-- Channel used by the C5 counterexample. -/
def c5Channel : Channel := ⟨3, "c5", "zerokey", none⟩

/-- Credential with the zero `expiresAt` and a refresh token. -/
def c5Creds : OAuth2Credentials := ⟨"at", "rt", "acc", "cid", none⟩

/-- Sweep environment holding a single zero-expiry credential. -/
def c5Env : SweepEnv where
  refreshResult := fun _ c => .ok c
  toJSONResult := fun _ => .ok "blob5"
  updateKeyResult := fun _ _ => .ok ()
  store := [some c5Channel]
  queryFails := fun _ => false
  parseCreds := fun s => if s = "zerokey" then .ok c5Creds else .error "bad"
  now := 1000
  loadPanics := false

/-- Claim C5 counterexample: a credential whose `expiresAt` is the zero
value IS refreshed by a sweep.  The guard
`!creds.ExpiresAt.IsZero() && time.Until(creds.ExpiresAt) > threshold` is
false for the zero value, so the item is not skipped: the refresh runs and
the stored record is rewritten. -/
theorem zero_expiry_is_refreshed :
    c5Creds.expiresAt = none ∧
      Event.refreshCall 3 ∈ (RunCodexCredentialAutoRefresh false c5Env).events ∧
      Event.storeWrite 3 "blob5" ∈
        (RunCodexCredentialAutoRefresh false c5Env).events ∧
      (RunCodexCredentialAutoRefresh false c5Env).refreshed = 1 := by
  decide

/-- Claim C5 (amended): during a sweep, a parsed credential with a
non-empty refresh token and the zero `expiresAt` is attempted (the
Executor is invoked on it); an item is skipped by the expiry guard exactly
when its `expiresAt` is non-zero and more than the 24-hour threshold in
the future — so a non-zero `expiresAt` within the threshold (or already
past) is attempted as well. -/
theorem expiry_threshold_selection (env : SweepEnv) (acc : SweepAcc)
    (ch : Channel) (creds : OAuth2Credentials)
    (hkey : trimString ch.key ≠ "")
    (hparse : env.parseCreds (trimString ch.key) = .ok creds)
    (hrt : trimString creds.refreshToken ≠ "") :
    (creds.expiresAt = none →
      Event.refreshCall ch.id ∈ (processChannel env acc (some ch)).events) ∧
    (∀ e, creds.expiresAt = some e →
      e - env.now ≤ codexCredentialRefreshThreshold →
      Event.refreshCall ch.id ∈ (processChannel env acc (some ch)).events) ∧
    (∀ e, creds.expiresAt = some e →
      e - env.now > codexCredentialRefreshThreshold →
      processChannel env acc (some ch) = { acc with scanned := acc.scanned + 1 }) := by
  unfold processChannel
  dsimp only
  rw [if_neg hkey, hparse]
  dsimp only
  rw [if_neg hrt]
  have hcall : ∀ evs, (RefreshCodexChannelCredentialInternal env.toRefreshEnv
      ch creds).2 = evs → Event.refreshCall ch.id ∈ evs := by
    intro evs hevs
    rcases internal_events_shape env.toRefreshEnv ch creds with hsh | ⟨blob, hsh⟩
    · rw [hevs] at hsh
      rw [hsh]
      simp
    · rw [hevs] at hsh
      rw [hsh]
      simp
  refine ⟨?_, ?_, ?_⟩
  · intro hz
    rw [hz]
    dsimp only
    rcases hint : RefreshCodexChannelCredentialInternal env.toRefreshEnv
      ch creds with ⟨res, evs⟩
    have hc := hcall evs (by rw [hint])
    rcases res with e | nc
    · simp [hc]
    · simp [hc]
  · intro e hsome hnear
    rw [hsome]
    dsimp only
    rw [if_neg (by simp only [decide_eq_true_eq]; omega)]
    rcases hint : RefreshCodexChannelCredentialInternal env.toRefreshEnv
      ch creds with ⟨res, evs⟩
    have hc := hcall evs (by rw [hint])
    rcases res with e' | nc
    · simp [hc]
    · simp [hc]
  · intro e hsome hfar
    rw [hsome]
    dsimp only
    rw [if_pos (by simp [hfar])]

/-- Far-future credential used by the C5 witness's skip direction. -/
def c5FarCreds : OAuth2Credentials := ⟨"at", "rt", "acc", "cid", some 1000000⟩

/-- Sweep environment holding a single far-future credential. -/
def c5FarEnv : SweepEnv where
  refreshResult := fun _ c => .ok c
  toJSONResult := fun _ => .ok "blob5"
  updateKeyResult := fun _ _ => .ok ()
  store := [some c5Channel]
  queryFails := fun _ => false
  parseCreds := fun s => if s = "zerokey" then .ok c5FarCreds else .error "bad"
  now := 0
  loadPanics := false

/-- Near-expiry credential (expires 100s after `now`, well within the
24-hour threshold) used by the C5 witness's attempted direction. -/
def c5NearCreds : OAuth2Credentials := ⟨"at", "rt", "acc", "cid", some 100⟩

/-- Sweep environment holding a single near-expiry credential. -/
def c5NearEnv : SweepEnv where
  refreshResult := fun _ c => .ok c
  toJSONResult := fun _ => .ok "blob5"
  updateKeyResult := fun _ _ => .ok ()
  store := [some c5Channel]
  queryFails := fun _ => false
  parseCreds := fun s => if s = "zerokey" then .ok c5NearCreds else .error "bad"
  now := 0
  loadPanics := false

/-- Witness for the amended C5: the zero-expiry credential is attempted,
the near-expiry (within-threshold) one is attempted, and the far-future
one is skipped. -/
theorem expiry_threshold_selection_witness :
    Event.refreshCall 3 ∈
        (processChannel c5Env ⟨0, 0, 0, []⟩ (some c5Channel)).events ∧
      Event.refreshCall 3 ∈
        (processChannel c5NearEnv ⟨0, 0, 0, []⟩ (some c5Channel)).events ∧
      processChannel c5FarEnv ⟨0, 0, 0, []⟩ (some c5Channel) =
        ⟨1, 0, 0, []⟩ :=
  ⟨(expiry_threshold_selection c5Env ⟨0, 0, 0, []⟩ c5Channel c5Creds
      (by decide) (by decide) (by decide)).1 rfl,
    (expiry_threshold_selection c5NearEnv ⟨0, 0, 0, []⟩ c5Channel c5NearCreds
      (by decide) (by decide) (by decide)).2.1 100 rfl (by decide),
    (expiry_threshold_selection c5FarEnv ⟨0, 0, 0, []⟩ c5Channel c5FarCreds
      (by decide) (by decide) (by decide)).2.2 1000000 rfl (by decide)⟩

/-! ## Secret-resolution theorems -/

/-- Environment with all three keys unset and a persisted secret file. -/
def c8AllUnsetEnv : SecretEnv where
  getSetting := fun _ => ""
  secretFile := some "persisted-secret"
  sessionSecret := "fresh-session-secret"

/-- Claim C8 counterexample: with all three configuration keys unset but a
non-empty persisted secret file present, `resolveUserTokenSecret` returns
the file's content, not the process-generated session secret. -/
theorem secret_file_overrides_session_secret :
    resolveUserTokenSecret c8AllUnsetEnv = "persisted-secret" ∧
      trimString c8AllUnsetEnv.sessionSecret = "fresh-session-secret" ∧
      ("persisted-secret" : String) ≠ "fresh-session-secret" := by
  decide

/-- Claim C8 (amended): `resolveUserTokenSecret` returns the first
non-empty value among `user_token_secret`, `token_secret`,
`session_secret` in that order (so with all three set the dedicated key
wins, and with only the legacy key set it wins); when all three are unset
it returns the persisted secret file's content if present and non-empty,
and only otherwise the process-generated session secret. -/
theorem secret_resolution_order (env : SecretEnv) :
    (trimString (env.getSetting "user_token_secret") ≠ "" →
      resolveUserTokenSecret env =
        trimString (env.getSetting "user_token_secret")) ∧
    (trimString (env.getSetting "user_token_secret") = "" →
      trimString (env.getSetting "token_secret") ≠ "" →
      resolveUserTokenSecret env =
        trimString (env.getSetting "token_secret")) ∧
    (trimString (env.getSetting "user_token_secret") = "" →
      trimString (env.getSetting "token_secret") = "" →
      trimString (env.getSetting "session_secret") ≠ "" →
      resolveUserTokenSecret env =
        trimString (env.getSetting "session_secret")) ∧
    (trimString (env.getSetting "user_token_secret") = "" →
      trimString (env.getSetting "token_secret") = "" →
      trimString (env.getSetting "session_secret") = "" →
      (∀ d, env.secretFile = some d → trimString d ≠ "" →
        resolveUserTokenSecret env = trimString d) ∧
      ((match env.secretFile with
        | some d => trimString d
        | none => "") = "" →
        resolveUserTokenSecret env = trimString env.sessionSecret)) := by
  refine ⟨?_, ?_, ?_, ?_⟩
  · intro h1
    simp [resolveUserTokenSecret, List.find?, h1]
  · intro h1 h2
    simp [resolveUserTokenSecret, List.find?, h1, h2]
  · intro h1 h2 h3
    simp [resolveUserTokenSecret, List.find?, h1, h2, h3]
  · intro h1 h2 h3
    constructor
    · intro d hd hne
      simp [resolveUserTokenSecret, List.find?, h1, h2, h3, hd, hne]
    · intro hfile
      rcases hf : env.secretFile with _ | d
      · simp [resolveUserTokenSecret, List.find?, h1, h2, h3, hf]
      · rw [hf] at hfile
        have hfile2 : trimString d = "" := hfile
        simp [resolveUserTokenSecret, List.find?, h1, h2, h3, hf, hfile2]

/-- Environment with all three keys set. -/
def c8AllSetEnv : SecretEnv where
  getSetting := fun k =>
    if k = "user_token_secret" then "dedicated"
    else if k = "token_secret" then "legacy"
    else if k = "session_secret" then "sess" else ""
  secretFile := none
  sessionSecret := "gen"

/-- Environment with only the legacy key set. -/
def c8LegacyEnv : SecretEnv where
  getSetting := fun k => if k = "token_secret" then "legacy" else ""
  secretFile := none
  sessionSecret := "gen"

/-- Environment with nothing set and no secret file. -/
def c8NoneEnv : SecretEnv where
  getSetting := fun _ => ""
  secretFile := none
  sessionSecret := "gen"

/-- Witness for the amended C8 on three concrete environments. -/
theorem secret_resolution_order_witness :
    resolveUserTokenSecret c8AllSetEnv =
        trimString (c8AllSetEnv.getSetting "user_token_secret") ∧
      resolveUserTokenSecret c8LegacyEnv =
        trimString (c8LegacyEnv.getSetting "token_secret") ∧
      resolveUserTokenSecret c8NoneEnv =
        trimString c8NoneEnv.sessionSecret :=
  ⟨(secret_resolution_order c8AllSetEnv).1 (by decide),
    (secret_resolution_order c8LegacyEnv).2.1 (by decide) (by decide),
    ((secret_resolution_order c8NoneEnv).2.2.2 (by decide) (by decide)
      (by decide)).2 (by decide)⟩

end DoneHub
